import Mathlib

/-!
Verification development for the archive engine (package `archive`,
files `tar.go` and `targz.go`): a shallow embedding of the TAR handle
state machine, the entry materialization logic, the extract walk and the
pack-path naming, together with theorems settling the specification
claims against it.

Conventions of the embedding:
* Go strings are Lean `String`; every string operation used by the code
  (`strings.HasSuffix`, `path.Clean`, `path.Join`, `path.Dir`,
  `filepath.Rel`, `filepath.Join` on a slash-separated host) is
  re-implemented by structural recursion over the character list, so
  that every definition evaluates inside the kernel.
* Go errors are the error message (`GoErr`); fallible operations return
  the sum type `Res`.
* File-system effects (mkdir, file creation, links) are out of scope per
  the spec and are represented as a list of requested actions.
-/

/-- A Go error value, identified by its message. -/
abbrev GoErr := String

/-- Result of a fallible Go call: a value or an error. -/
inductive Res (α : Type) where
  | ok : α → Res α
  | err : GoErr → Res α
deriving DecidableEq, Repr

/-- Concatenation of two strings by list append (Go string concatenation,
kernel-reducible). -/
def strCat (a b : String) : String := ⟨a.data ++ b.data⟩

/-- Go strings.HasSuffix, via list suffix testing on the characters. -/
def goHasSuffix (s suffix : String) : Bool := suffix.data.isSuffixOf s.data

/-- Go strings.HasPrefix, via list testing on the characters. -/
def goHasPre (s p : String) : Bool := p.data.isPrefixOf s.data

/-- Split a character list at every slash (Go strings.Split on "/"). -/
def splitSegsAux : List Char → List Char → List (List Char)
  | [], acc => [acc.reverse]
  | c :: cs, acc =>
    if c = '/' then acc.reverse :: splitSegsAux cs []
    else splitSegsAux cs (c :: acc)

/-- Split a path string into its slash-separated segments. -/
def splitSlash (s : String) : List String :=
  (splitSegsAux s.data []).map (fun l => ⟨l⟩)

/-- Join segments with slashes (inverse of splitSlash on nonempty segments). -/
def joinSegs : List String → String
  | [] => ""
  | [x] => x
  | x :: y :: xs => ⟨x.data ++ '/' :: (joinSegs (y :: xs)).data⟩

/-- The element-processing loop of Go path.Clean: drop empty and dot
segments, resolve dot-dot against the segment stack (an unmatched dot-dot
is kept for a relative path and dropped at the root of an absolute one). -/
def cleanLoopSegs (isAbs : Bool) : List String → List String → List String
  | stack, [] => stack.reverse
  | stack, seg :: rest =>
    if seg = "" ∨ seg = "." then cleanLoopSegs isAbs stack rest
    else if seg = ".." then
      match stack with
      | [] => if isAbs then cleanLoopSegs isAbs [] rest
              else cleanLoopSegs isAbs [".."] rest
      | top :: stack2 =>
        if top = ".." then cleanLoopSegs isAbs (".." :: top :: stack2) rest
        else cleanLoopSegs isAbs stack2 rest
    else cleanLoopSegs isAbs (seg :: stack) rest

/-- Go path.Clean (also filepath.Clean on a slash-separated host). -/
def pathClean (s : String) : String :=
  let isAbs := goHasPre s "/"
  let segs := cleanLoopSegs isAbs [] (splitSlash s)
  let body := joinSegs segs
  if isAbs then strCat "/" body
  else if body = "" then "." else body

/-- Go path.Join of two elements (also filepath.Join on a slash-separated
host): empty elements are dropped and the result is cleaned; the join of
two empty strings is empty. -/
def pathJoin2 (a b : String) : String :=
  if a = "" then (if b = "" then "" else pathClean b)
  else if b = "" then pathClean a
  else pathClean (strCat a (strCat "/" b))

/-- The characters strictly before the last slash of a path, if any. -/
def lastSlashSplit : List Char → Option (List Char)
  | [] => none
  | c :: cs =>
    match lastSlashSplit cs with
    | some pre => some (c :: pre)
    | none => if c = '/' then some [] else none

/-- Go path.Dir: everything up to the final slash, cleaned; dot when the
path holds no slash. -/
def pathDir (s : String) : String :=
  match lastSlashSplit s.data with
  | none => "."
  | some pre => pathClean ⟨pre ++ ['/']⟩

/-- Strip the longest common leading run of two segment lists. -/
def stripCommon : List String → List String → List String × List String
  | x :: xs, y :: ys =>
    if x = y then stripCommon xs ys else (x :: xs, y :: ys)
  | xs, ys => (xs, ys)

/-- Go filepath.Rel on a slash-separated host: clean both paths, convert a
dot base to the empty path, refuse mixed absolute and relative inputs or a
base escaping through dot-dot, then climb out of the remaining base
segments and descend into the remaining target segments. -/
def filepathRel (base targ : String) : Option String :=
  let b0 := pathClean base
  let t := pathClean targ
  if b0 = t then some "."
  else
    let b := if b0 = "." then "" else b0
    if (goHasPre b "/" && !goHasPre t "/") ∨ (!goHasPre b "/" && goHasPre t "/") then none
    else
      let bs := if b = "" then [] else splitSlash b
      let ts := if t = "" then [] else splitSlash t
      let p := stripCommon bs ts
      if p.1.headD "" = ".." then none
      else some (joinSegs (List.replicate p.1.length ".." ++ p.2))

/-- Modelled from the spec: the containment check within is in a source
file that is not part of this snapshot; per the spec it holds iff the
candidate, after normalization, equals the target or lies lexically
nested under it, i.e. the target followed by a separator is a leading
piece of the candidate. -/
def within (target candidate : String) : Bool :=
  let c := pathClean candidate
  c == target || (strCat target "/").data.isPrefixOf c.data

/-! ## The archive handle state machine (tar.go, targz.go) -/

/-- An abstract byte sink or source: either a raw stream (identified by a
number) or a gzip encoding or decoding layer over an inner stream, as the
stream wrapping layer would build it. -/
inductive ByteStream where
  | raw : Nat → ByteStream
  | gzipW : Int → ByteStream → ByteStream
  | gzipR : ByteStream → ByteStream
deriving DecidableEq, Repr

/-- Number of gzip layers wrapped around the raw stream. -/
def ByteStream.gzipLayers : ByteStream → Nat
  | .raw _ => 0
  | .gzipW _ s => s.gzipLayers + 1
  | .gzipR s => s.gzipLayers + 1

/-- The wrap function values installed by TarGz.wrapWriter and
TarGz.wrapReader: a gzip encoder at a compression level, or a gzip
decoder. -/
inductive GzWrap where
  | writer : Int → GzWrap
  | reader : GzWrap
deriving DecidableEq, Repr

/-- The state of an underlying tar.Writer: the stream it was constructed
over by tar.NewWriter, and the outcome its own Close call will report
(an input of the model, standing for the sink I/O result). -/
structure TarWriterH where
  dest : ByteStream
  closeErr : Option GoErr
deriving DecidableEq, Repr

/-- The state of an underlying tar.Reader: the stream it was constructed
over by tar.NewReader. -/
structure TarReaderH where
  src : ByteStream
deriving DecidableEq, Repr

/-- The mutable fields of the Tar struct that the handle operations
touch: the writer binding tw, the reader binding tr, and the wrap
function slots assigned by targz.go (the slots are declared outside this
snapshot; their assignment sites in targz.go fix their shape). -/
structure TarState where
  tw : Option TarWriterH
  tr : Option TarReaderH
  writerWrapFn : Option GzWrap
  readerWrapFn : Option GzWrap
  cleanupWrapFn : Option GzWrap
deriving DecidableEq, Repr

/-- The configuration fields of the Tar struct. -/
structure TarConfig where
  overwriteExisting : Bool
  mkdirAll : Bool
  implicitTopLevelFolder : Bool
  continueOnError : Bool
deriving DecidableEq, Repr

/-- A handle with no bindings and no wrap functions installed. -/
def tarState0 : TarState := ⟨none, none, none, none, none⟩

/-- The all-false configuration (zero value of the Tar struct). -/
def cfg0 : TarConfig := ⟨false, false, false, false⟩

/-- Tar.Create (tar.go): refuse when a writer is already bound, else bind
a fresh tar.Writer constructed directly over the given sink. The function
reads no wrap slot: the sink is used as passed. -/
def tarCreate (t : TarState) (out : ByteStream) : TarState × Option GoErr :=
  match t.tw with
  | some _ => (t, some "tar archive is already created for writing")
  | none => ({ t with tw := some ⟨out, none⟩ }, none)

/-- Tar.Open (tar.go): refuse when a reader is already bound, else bind a
fresh tar.Reader constructed directly over the given source. The function
reads no wrap slot: the source is used as passed. -/
def tarOpen (t : TarState) (inp : ByteStream) : TarState × Option GoErr :=
  match t.tr with
  | some _ => (t, some "tar archive is already open for reading")
  | none => ({ t with tr := some ⟨inp⟩ }, none)

/-- One 512-byte block of the tar stream. -/
abbrev TarBlock := List Nat

/-- An all-zero 512-byte block. -/
def zeroBlock : TarBlock := List.replicate 512 0

/-- The end-of-archive marker the underlying tar.Writer emits on Close:
two all-zero blocks. -/
def endOfArchiveMarker : List TarBlock := [zeroBlock, zeroBlock]

/-- Tar.Close (tar.go): drop the reader binding if any; if a writer is
bound, drop it and close it, which emits the end-of-archive marker and
reports the close outcome of the underlying writer; otherwise report
success with nothing emitted. -/
def tarClose (t : TarState) : TarState × (List TarBlock × Option GoErr) :=
  let t1 := match t.tr with
    | some _ => { t with tr := none }
    | none => t
  match t1.tw with
  | some w => ({ t1 with tw := none }, (endOfArchiveMarker, w.closeErr))
  | none => (t1, ([], none))

/-- TarGz.wrapWriter (targz.go): install a gzip encoder at the configured
compression level into the writer wrap slot and the matching cleanup. -/
def tgzWrapWriterState (lvl : Int) (t : TarState) : TarState :=
  { t with writerWrapFn := some (GzWrap.writer lvl),
           cleanupWrapFn := some (GzWrap.writer lvl) }

/-- TarGz.wrapReader (targz.go): install a gzip decoder into the reader
wrap slot and the matching cleanup. -/
def tgzWrapReaderState (t : TarState) : TarState :=
  { t with readerWrapFn := some GzWrap.reader,
           cleanupWrapFn := some GzWrap.reader }

/-- TarGz.Open (targz.go): install the reader wrap, then delegate to
Tar.Open on the embedded handle. -/
def tarGzOpen (t : TarState) (inp : ByteStream) : TarState × Option GoErr :=
  tarOpen (tgzWrapReaderState t) inp

/-- The TarGz struct: the embedded Tar handle state plus the compression
level. -/
structure TGZState where
  tar : TarState
  compressionLevel : Int
deriving DecidableEq, Repr

/-- TarGz.wrapWriter acting on the whole TarGz value. -/
def tgzWrapWriter (s : TGZState) : TGZState :=
  { s with tar := tgzWrapWriterState s.compressionLevel s.tar }

/-- TarGz.Create (targz.go) unrolled with fuel: the body installs the
writer wrap and then calls tgz.Create again on the same receiver, so each
unrolling step performs the wrap installation and recurses; no amount of
fuel reaches a result. -/
def tarGzCreateFuel : Nat → TGZState → ByteStream → Option (TGZState × Option GoErr)
  | 0, _, _ => none
  | Nat.succ n, s, out => tarGzCreateFuel n (tgzWrapWriter s) out

/-! ## Entries, materialization and the unarchive loop (tar.go) -/

/-- The tar header type flags the code distinguishes. -/
inductive TypeFlag where
  | reg | regA | dir | symlink | link | char | block | fifo
  | xGlobalHeader
  | unknown : Char → TypeFlag
deriving DecidableEq, Repr

/-- One archive entry as read from the stream: header name, type flag,
link target, payload bytes and permission bits. -/
structure TEntry where
  name : String
  typeflag : TypeFlag
  linkname : String
  content : List Nat
  mode : Nat
deriving DecidableEq, Repr

/-- Whether the header describes a directory (hdr.FileInfo().IsDir()). -/
def entryIsDir (e : TEntry) : Bool :=
  match e.typeflag with
  | .dir => true
  | _ => false

/-- Modelled from the spec: the file-system collaborators mkdir,
writeNewFile, writeNewSymbolicLink and writeNewHardLink live in a source
file that is not part of this snapshot; per the spec they are injected
capabilities, so materialization is recorded as the list of requested
actions. -/
inductive FSAction where
  | mkdirA : String → FSAction
  | writeFile : String → List Nat → Nat → FSAction
  | symlink : String → String → FSAction
  | hardlink : String → String → FSAction
deriving DecidableEq, Repr

/-- Tar.untarFile (tar.go): refuse to overwrite an existing non-directory
destination unless configured otherwise, then dispatch on the type flag:
directory creation, plain file creation for the regular and device kinds,
a symbolic link to the recorded target verbatim, a hard link whose target
is the link name joined under the entry destination path itself, a
silently ignored global header, and an error for any other flag. The
existence of a destination path is an input of the model (a fixed
predicate standing for the file system at the time of the check). -/
def untarFile (cfg : TarConfig) (fsExists : String → Bool) (e : TEntry)
    (dst : String) : Res (List FSAction) :=
  if !entryIsDir e && !cfg.overwriteExisting && fsExists dst then
    .err (strCat "file already exists: " dst)
  else
    match e.typeflag with
    | .dir => .ok [.mkdirA dst]
    | .reg => .ok [.writeFile dst e.content e.mode]
    | .regA => .ok [.writeFile dst e.content e.mode]
    | .char => .ok [.writeFile dst e.content e.mode]
    | .block => .ok [.writeFile dst e.content e.mode]
    | .fifo => .ok [.writeFile dst e.content e.mode]
    | .symlink => .ok [.symlink dst e.linkname]
    | .link => .ok [.hardlink dst (pathJoin2 dst e.linkname)]
    | .xGlobalHeader => .ok []
    | .unknown c =>
      .err (strCat e.name (strCat ": unknown type flag: " ⟨[c]⟩))

/-- Tar.untarNext (tar.go): read the next entry and materialize it at the
destination joined with the header name. -/
def untarNext (cfg : TarConfig) (fsExists : String → Bool)
    (dest : String) (e : TEntry) : Res (List FSAction) :=
  untarFile cfg fsExists e (pathJoin2 dest e.name)

/-- Result of a whole unarchive pass: the materialization actions in
order, and the messages handed to the logger for skipped entries. -/
structure UnarchiveOut where
  actions : List FSAction
  logged : List GoErr
deriving DecidableEq, Repr

/-- The entry loop of Tar.Unarchive (tar.go): repeatedly read and
materialize entries until end of archive; an entry error is logged and
skipped when the continue-on-error flag is set, and otherwise aborts the
whole operation wrapped as a reading error. -/
def unarchiveLoop (cfg : TarConfig) (fsExists : String → Bool)
    (dest : String) : List TEntry → Res UnarchiveOut
  | [] => .ok ⟨[], []⟩
  | e :: rest =>
    match untarNext cfg fsExists dest e with
    | .err msg =>
      if cfg.continueOnError then
        match unarchiveLoop cfg fsExists dest rest with
        | .err e2 => .err e2
        | .ok out => .ok ⟨out.actions, msg :: out.logged⟩
      else .err (strCat "reading file in tar archive: " msg)
    | .ok acts =>
      match unarchiveLoop cfg fsExists dest rest with
      | .err e2 => .err e2
      | .ok out => .ok ⟨acts ++ out.actions, out.logged⟩

/-! ## The codec write side (tar.go) -/

/-- The file metadata Tar.Write consumes: the effective name (CustomName
when set), whether the node is a directory, the kind driving the header
type flag, and the permission bits. -/
structure GoFileInfo where
  name : String
  isDir : Bool
  kind : TypeFlag
  mode : Nat
deriving DecidableEq, Repr

/-- The File value handed to Tar.Write: an optional FileInfo and an
optional readable content stream. -/
structure WFile where
  info : Option GoFileInfo
  content : Option (List Nat)
deriving DecidableEq, Repr

/-- One record of the produced tar stream: a header, or a payload of
content bytes. -/
inductive Record where
  | header : String → TypeFlag → Nat → Record
  | payload : List Nat → Record
deriving DecidableEq, Repr

/-- Tar.Write (tar.go): require an open writer, a file info, a non-empty
name and a content stream; then emit the header synthesized from the
metadata, stop there for a directory, and copy the content after the
header exactly when the header type flag is the regular-file flag. -/
def tarWrite (t : TarState) (f : WFile) : Res (List Record) :=
  match t.tw with
  | none => .err "tar archive was not created for writing first"
  | some _ =>
    match f.info with
    | none => .err "no file info"
    | some fi =>
      if fi.name = "" then .err "missing file name"
      else
        match f.content with
        | none => .err (strCat fi.name ": no way to read file contents")
        | some bytes =>
          let hdr : Record := .header fi.name fi.kind fi.mode
          if fi.isDir then .ok [hdr]
          else if fi.kind = TypeFlag.reg then .ok [hdr, .payload bytes]
          else .ok [hdr]

/-! ## The extract walk (tar.go) -/

/-- Result of an extract pass: the materialization actions, the number of
entries the walk consumed from the stream, and the logged messages. -/
structure ExtractOut where
  actions : List FSAction
  consumed : Nat
  logged : List GoErr
deriving DecidableEq, Repr

/-- What the extract visitor asks the walk to do for one entry. -/
inductive WalkStep where
  | go : List FSAction → WalkStep
  | stop : List FSAction → WalkStep
  | fail : GoErr → WalkStep
deriving DecidableEq, Repr

/-- The visitor body of Tar.Extract (tar.go): record the enclosing
directory once the target directory entry is seen; for an entry within
the target, relativize it against that directory, materialize it under
the destination, and stop the walk right away when the target was not a
directory; for an entry outside the target after the directory was seen,
stop the walk; otherwise continue. The first component is the updated
target directory path. -/
def extractVisit (cfg : TarConfig) (fsExists : String → Bool)
    (target destination tdp : String) (e : TEntry) : String × WalkStep :=
  let name := pathClean e.name
  let tdp1 := if entryIsDir e && target == name then pathDir name else tdp
  if within target e.name then
    match filepathRel tdp1 e.name with
    | none => (tdp1, .fail "relativizing paths")
    | some tail =>
      let joined := pathJoin2 destination tail
      match untarFile cfg fsExists e joined with
      | .err msg =>
        (tdp1, .fail (strCat "extracting file " (strCat e.name (strCat ": " msg))))
      | .ok acts =>
        if tdp1 == "" then (tdp1, .stop acts) else (tdp1, .go acts)
  else if tdp1 == "" then (tdp1, .go [])
  else (tdp1, .stop [])

/-- The entry loop of Tar.Walk (tar.go) driving the extract visitor: a
stop request ends the walk without error; a visitor error is logged and
skipped under the continue-on-error flag and otherwise aborts the walk
wrapped as a walking error. -/
def extractLoop (cfg : TarConfig) (fsExists : String → Bool)
    (target destination : String) : String → List TEntry → Res ExtractOut
  | _, [] => .ok ⟨[], 0, []⟩
  | tdp, e :: rest =>
    match extractVisit cfg fsExists target destination tdp e with
    | (_, .stop acts) => .ok ⟨acts, 1, []⟩
    | (tdp1, .go acts) =>
      match extractLoop cfg fsExists target destination tdp1 rest with
      | .err m => .err m
      | .ok out => .ok ⟨acts ++ out.actions, out.consumed + 1, out.logged⟩
    | (tdp1, .fail msg) =>
      if cfg.continueOnError then
        match extractLoop cfg fsExists target destination tdp1 rest with
        | .err m => .err m
        | .ok out => .ok ⟨out.actions, out.consumed + 1, msg :: out.logged⟩
      else .err (strCat "walking " (strCat e.name (strCat ": " msg)))

/-- Tar.Extract (tar.go): clean the requested target, then walk the
archive with the extract visitor starting with an empty target directory
path. -/
def tarExtract (cfg : TarConfig) (fsExists : String → Bool)
    (target destination : String) (entries : List TEntry) : Res ExtractOut :=
  extractLoop cfg fsExists (pathClean target) destination "" entries

/-! ## The pack path naming (tar.go Tar.writeWalk) -/

/-- A file-system subtree: a regular file with content and permission
bits, or a directory with children in walk order. -/
inductive FNode where
  | file : String → List Nat → Nat → FNode
  | dir : String → List FNode → FNode

/-- The base name of a node. -/
def nodeName : FNode → String
  | .file n _ _ => n
  | .dir n _ => n

/-- Whether a node is a directory. -/
def nodeIsDir : FNode → Bool
  | .file _ _ _ => false
  | .dir _ _ => true

/-- The archive-relative name Tar.writeWalk assigns to a visited path:
the source string itself at the walk root, and otherwise the path
relativized against the source; joined under the base directory. -/
def nameInArchive (baseDir source fpath : String) : String :=
  let name := if fpath = source then source else (filepathRel source fpath).getD ""
  pathJoin2 baseDir name

mutual
/-- The visitor of Tar.writeWalk over a subtree rooted at a path: a
directory contributes a header-only entry before its children; a regular
file contributes an entry carrying its content. -/
def walkNode (baseDir source fpath : String) : FNode → List TEntry
  | .file _ bytes mode =>
    [⟨nameInArchive baseDir source fpath, TypeFlag.reg, "", bytes, mode⟩]
  | .dir _ children =>
    ⟨nameInArchive baseDir source fpath, TypeFlag.dir, "", [], 0⟩ ::
      walkChildren baseDir source fpath children
/-- The children of a directory are visited in order, each at the parent
path joined with the child name, as filepath.Walk does. -/
def walkChildren (baseDir source fpath : String) : List FNode → List TEntry
  | [] => []
  | c :: cs =>
    walkNode baseDir source (pathJoin2 fpath (nodeName c)) c ++
      walkChildren baseDir source fpath cs
end

/-- Tar.writeWalk (tar.go) for one source path with a possible top-level
folder: the base directory is the top-level folder, extended by the base
name of the source when the source is a directory; then the subtree is
walked from the source path itself. -/
def writeWalkEntries (source topLevelFolder : String) (root : FNode) : List TEntry :=
  let base0 := topLevelFolder
  let baseDir := if nodeIsDir root then pathJoin2 base0 (nodeName root) else base0
  walkNode baseDir source source root

mutual
/-- The relative paths of a subtree, each node under the given parent
path: the reference layout a faithful round trip has to reproduce. -/
def relPathsFrom (pre : String) : FNode → List String
  | .file n _ _ => [pathJoin2 pre n]
  | .dir n children => pathJoin2 pre n :: relPathsChildren (pathJoin2 pre n) children
/-- Relative paths of a list of siblings under their parent path. -/
def relPathsChildren (pre : String) : List FNode → List String
  | [] => []
  | c :: cs => relPathsFrom pre c ++ relPathsChildren pre cs
end

/-- The relative paths of a whole subtree, from its root. -/
def treeRelPaths (root : FNode) : List String := relPathsFrom "" root

/-! ## The pre-flight naming validation (tar.go, targz.go) -/

/-- The extension check opening Tar.Archive (tar.go): the destination
must end in the plain canonical extension. -/
def tarCheckExt (destination : String) : Option GoErr :=
  if goHasSuffix destination ".tar" then none
  else some "output filename must have .tar extension"

/-- The extension check opening TarGz.Archive (targz.go): the destination
must end in one of the two compressed canonical extensions. -/
def tarGzCheckExt (destination : String) : Option GoErr :=
  if goHasSuffix destination ".tar.gz" || goHasSuffix destination ".tgz" then none
  else some "output filename must have .tar.gz or .tgz extension"

/-- The pre-flight of Tar.Archive (tar.go): the extension check, then the
destination-exists check when overwriting is not allowed; both run before
any stream is opened. -/
def tarArchivePre (cfg : TarConfig) (destExists : Bool)
    (destination : String) : Option GoErr :=
  match tarCheckExt destination with
  | some e => some e
  | none =>
    if !cfg.overwriteExisting && destExists then
      some (strCat "file already exists: " destination)
    else none

/-- The pre-flight of TarGz.Archive (targz.go): its own extension check,
then the writer wrap installation, then delegation to Tar.Archive on the
embedded handle, whose own pre-flight runs next. -/
def tarGzArchivePre (cfg : TarConfig) (destExists : Bool)
    (destination : String) : Option GoErr :=
  match tarGzCheckExt destination with
  | some e => some e
  | none => tarArchivePre cfg destExists destination

/-! ## Fixed inputs used by the theorems -/

/-- A file-system snapshot on which no destination path exists yet. -/
def exFalse : String → Bool := fun _ => false

/-- The zero configuration with the continue-on-error flag set. -/
def cfgCont : TarConfig := ⟨false, false, false, true⟩

/-- A bound writer over raw stream zero whose close reports success. -/
def w0 : TarWriterH := ⟨ByteStream.raw 0, none⟩

/-- A handle already open for writing. -/
def tarStateW : TarState := ⟨some w0, none, none, none, none⟩

/-- A one-directory source tree: directory d holding the regular file
x.txt. -/
def demoTree : FNode := FNode.dir "d" [FNode.file "x.txt" [104, 105] 420]

/-! ## Supporting lemmas -/

/-- The three containment test vectors given by the spec hold for the
modelled check. -/
theorem within_spec_vectors :
    within "docs" "docs/readme.md" = true ∧
    within "docs" "docs2/readme.md" = false ∧
    within "docs" "docs" = true := by decide

/-- Sanity vectors for the path model, matching the Go library behavior
on the inputs the embedding exercises. -/
theorem path_model_vectors :
    pathClean "a/b/c.txt" = "a/b/c.txt" ∧
    pathClean "" = "." ∧
    pathClean "a/" = "a" ∧
    pathJoin2 "dest" "a/b/c.txt" = "dest/a/b/c.txt" ∧
    pathJoin2 "" "d/d" = "d/d" ∧
    pathDir "a/b" = "a" ∧
    pathDir "c.txt" = "." ∧
    filepathRel "" "a/b/c.txt" = some "a/b/c.txt" ∧
    filepathRel "a" "a/b/x" = some "b/x" ∧
    filepathRel "d" "d/x.txt" = some "x.txt" ∧
    filepathRel "a/b" "a" = some ".." := by decide

/-- Two character lists starting with different characters cannot both be
leading pieces of the same list. -/
theorem prefixOf_head_clash {a b : Char} {as bs l : List Char} (hab : a ≠ b)
    (h1 : List.isPrefixOf (a :: as) l = true)
    (h2 : List.isPrefixOf (b :: bs) l = true) : False := by
  cases l with
  | nil => simp [List.isPrefixOf] at h1
  | cons x xs =>
    simp [List.isPrefixOf] at h1 h2
    exact hab (h1.1.trans h2.1.symm)

/-- A string ending in the compressed canonical extension .tar.gz does
not end in the plain canonical extension .tar. -/
theorem goHasSuffix_targz_not_tar (d : String)
    (h : goHasSuffix d ".tar.gz" = true) : goHasSuffix d ".tar" = false := by
  have h1 : List.isPrefixOf ('z' :: ['g', '.', 'r', 'a', 't', '.']) d.data.reverse = true := h
  cases hb : goHasSuffix d ".tar" with
  | false => rfl
  | true =>
    have h2 : List.isPrefixOf ('r' :: ['a', 't', '.']) d.data.reverse = true := hb
    exact (prefixOf_head_clash (by decide) h1 h2).elim

/-- A string ending in the compressed canonical extension .tgz does not
end in the plain canonical extension .tar. -/
theorem goHasSuffix_tgz_not_tar (d : String)
    (h : goHasSuffix d ".tgz" = true) : goHasSuffix d ".tar" = false := by
  have h1 : List.isPrefixOf ('z' :: ['g', 't', '.']) d.data.reverse = true := h
  cases hb : goHasSuffix d ".tar" with
  | false => rfl
  | true =>
    have h2 : List.isPrefixOf ('r' :: ['a', 't', '.']) d.data.reverse = true := hb
    exact (prefixOf_head_clash (by decide) h1 h2).elim

/-! ## Claim theorems -/

/-- Claim C1. The claim states that a destination ending in .tar.gz or
.tgz passes the naming pre-flight of the compressed Archive operation.
On the code, TarGz.Archive delegates to Tar.Archive, whose own pre-flight
requires the .tar suffix, which no .tar.gz or .tgz name has: every
canonically named compressed destination is rejected with the plain
naming-convention error. -/
theorem tarGz_archive_naming_rejects_canonical (cfg : TarConfig)
    (destExists : Bool) (d : String)
    (h : goHasSuffix d ".tar.gz" = true ∨ goHasSuffix d ".tgz" = true) :
    tarGzArchivePre cfg destExists d =
      some "output filename must have .tar extension" := by
  have htar : goHasSuffix d ".tar" = false := by
    cases h with
    | inl h1 => exact goHasSuffix_targz_not_tar d h1
    | inr h1 => exact goHasSuffix_tgz_not_tar d h1
  have hck : tarGzCheckExt d = none := by
    unfold tarGzCheckExt
    cases h with
    | inl h1 => simp [h1]
    | inr h1 => simp [h1]
  simp [tarGzArchivePre, hck, tarArchivePre, tarCheckExt, htar]

/-- Witness for claim C1 at the concrete destination test.tar.gz. -/
theorem tarGz_archive_naming_rejects_canonical_witness :
    tarGzArchivePre cfg0 false "test.tar.gz" =
      some "output filename must have .tar extension" :=
  tarGz_archive_naming_rejects_canonical cfg0 false "test.tar.gz"
    (Or.inl (by decide))

/-- Claim C2. The claim states that the wrap functions installed by
wrapWriter and wrapReader are applied to the stream by the underlying
codec. On the code, Tar.Create constructs the tar writer directly over
the sink it is given and Tar.Open constructs the tar reader directly over
the source: with the gzip wrap functions installed, the bindings still
hold the unwrapped streams, adding no gzip layer. -/
theorem tarGz_wrap_not_applied (s : TarState) (lvl : Int)
    (out inp : ByteStream) (hw : s.tw = none) (hr : s.tr = none) :
    (tgzWrapWriterState lvl s).writerWrapFn = some (GzWrap.writer lvl) ∧
    (tarCreate (tgzWrapWriterState lvl s) out).1.tw = some ⟨out, none⟩ ∧
    (tgzWrapReaderState s).readerWrapFn = some GzWrap.reader ∧
    (tarGzOpen s inp).1.tr = some ⟨inp⟩ ∧
    ((tarCreate (tgzWrapWriterState lvl s) out).1.tw.map
      fun w => w.dest.gzipLayers) = some out.gzipLayers := by
  obtain ⟨tw, tr, a, b, c⟩ := s
  simp at hw hr
  subst hw; subst hr
  simp [tgzWrapWriterState, tgzWrapReaderState, tarGzOpen, tarCreate, tarOpen]

/-- Witness for claim C2 on a fresh handle with raw streams. -/
theorem tarGz_wrap_not_applied_witness :
    (tgzWrapWriterState 6 tarState0).writerWrapFn = some (GzWrap.writer 6) ∧
    (tarCreate (tgzWrapWriterState 6 tarState0) (ByteStream.raw 0)).1.tw =
      some ⟨ByteStream.raw 0, none⟩ ∧
    (tgzWrapReaderState tarState0).readerWrapFn = some GzWrap.reader ∧
    (tarGzOpen tarState0 (ByteStream.raw 1)).1.tr = some ⟨ByteStream.raw 1⟩ ∧
    ((tarCreate (tgzWrapWriterState 6 tarState0) (ByteStream.raw 0)).1.tw.map
      fun w => w.dest.gzipLayers) = some (ByteStream.raw 0).gzipLayers :=
  tarGz_wrap_not_applied tarState0 6 (ByteStream.raw 0) (ByteStream.raw 1)
    rfl rfl

/-- Claim C3 counterexample. The claim states that extracting the target
a/b/c.txt from an archive holding a/b/c.txt and a/b/d.txt writes the one
file at destination/c.txt. On the code, the target directory path stays
empty for a non-directory target, so the entry is relativized against the
empty path and lands at destination/a/b/c.txt, a different path. -/
theorem extract_nested_file_counterexample :
    tarExtract cfg0 exFalse "a/b/c.txt" "dest"
      [⟨"a/b/c.txt", TypeFlag.reg, "", [99], 420⟩,
       ⟨"a/b/d.txt", TypeFlag.reg, "", [100], 420⟩] =
      Res.ok ⟨[FSAction.writeFile "dest/a/b/c.txt" [99] 420], 1, []⟩ ∧
    "dest/a/b/c.txt" ≠ "dest/c.txt" :=
  ⟨rfl, by decide⟩

/-- Claim C3 as amended: for every archive starting with the file entries
a/b/c.txt and a/b/d.txt, extraction of the target a/b/c.txt writes
exactly one file, at the full entry path joined under the destination,
does not touch the sibling, and consumes exactly one entry before
stopping, whatever entries follow. -/
theorem extract_nested_file_amended (destination : String)
    (b1 b2 : List Nat) (m1 m2 : Nat) (rest : List TEntry) :
    tarExtract cfg0 exFalse "a/b/c.txt" destination
      (⟨"a/b/c.txt", TypeFlag.reg, "", b1, m1⟩ ::
       ⟨"a/b/d.txt", TypeFlag.reg, "", b2, m2⟩ :: rest) =
      Res.ok ⟨[FSAction.writeFile (pathJoin2 destination "a/b/c.txt") b1 m1],
        1, []⟩ := rfl

/-- Claim C4 counterexample. The claim states that an unrecognized type
flag always aborts Unarchive, even under the continue-on-error policy. On
the code, the unarchive loop treats the resulting entry error like any
other: with the policy enabled, the offending entry is logged and skipped
and the remaining entries are still materialized. -/
theorem unknown_flag_skipped_counterexample :
    unarchiveLoop cfgCont exFalse "dest"
      [⟨"evil", TypeFlag.unknown 'Z', "", [], 0⟩,
       ⟨"ok.txt", TypeFlag.reg, "", [1], 420⟩] =
      Res.ok ⟨[FSAction.writeFile "dest/ok.txt" [1] 420],
        ["evil: unknown type flag: Z"]⟩ := rfl

/-- Claim C4 as amended: an entry with an unrecognized type flag follows
the continue-or-abort policy like any other entry error during Unarchive;
it aborts the operation exactly when the continue-on-error flag is off,
and is logged and skipped when the flag is on. -/
theorem unknown_flag_policy_amended (cfg : TarConfig)
    (fsE : String → Bool) (dest : String) (e : TEntry) (c : Char)
    (rest : List TEntry) (hflag : e.typeflag = TypeFlag.unknown c)
    (hex : fsE (pathJoin2 dest e.name) = false) :
    (cfg.continueOnError = false →
      unarchiveLoop cfg fsE dest (e :: rest) =
        Res.err (strCat "reading file in tar archive: "
          (strCat e.name (strCat ": unknown type flag: " ⟨[c]⟩)))) ∧
    (cfg.continueOnError = true →
      unarchiveLoop cfg fsE dest (e :: rest) =
        match unarchiveLoop cfg fsE dest rest with
        | Res.err e2 => Res.err e2
        | Res.ok out =>
          Res.ok ⟨out.actions,
            strCat e.name (strCat ": unknown type flag: " ⟨[c]⟩) ::
              out.logged⟩) := by
  obtain ⟨nm, tf, ln, co, md⟩ := e
  simp only at hflag
  subst hflag
  simp only at hex
  constructor <;> intro hpol <;>
    simp [unarchiveLoop, untarNext, untarFile, entryIsDir, hex, hpol]

/-- Witness for claim C4 with the policy off on a one-entry archive. -/
theorem unknown_flag_policy_amended_witness :
    unarchiveLoop cfg0 exFalse "dest"
      [⟨"evil", TypeFlag.unknown 'Q', "", [], 0⟩] =
      Res.err (strCat "reading file in tar archive: "
        (strCat "evil" (strCat ": unknown type flag: " ⟨['Q']⟩))) :=
  (unknown_flag_policy_amended cfg0 exFalse "dest"
    ⟨"evil", TypeFlag.unknown 'Q', "", [], 0⟩ 'Q' [] rfl rfl).1 rfl

/-- Claim C5 counterexample. The claim states the hard link target is the
recorded link target resolved against the destination root, here
dst/orig. On the code, the link name is joined under the entry
destination path itself, giving dst/d/l/orig. -/
theorem hardlink_target_counterexample :
    untarNext cfg0 exFalse "dst" ⟨"d/l", TypeFlag.link, "orig", [], 0⟩ =
      Res.ok [FSAction.hardlink "dst/d/l" "dst/d/l/orig"] ∧
    pathJoin2 "dst" "orig" = "dst/orig" ∧
    "dst/d/l/orig" ≠ "dst/orig" :=
  ⟨rfl, rfl, by decide⟩

/-- Claim C5 as amended: for every hard-link entry that does not hit the
overwrite refusal, the created hard link sits at the destination joined
with the entry name and points at the link target joined under that same
entry destination path, not under the destination root. -/
theorem hardlink_target_amended (cfg : TarConfig) (fsE : String → Bool)
    (dest : String) (e : TEntry) (hflag : e.typeflag = TypeFlag.link)
    (hex : fsE (pathJoin2 dest e.name) = false) :
    untarNext cfg fsE dest e =
      Res.ok [FSAction.hardlink (pathJoin2 dest e.name)
        (pathJoin2 (pathJoin2 dest e.name) e.linkname)] := by
  obtain ⟨nm, tf, ln, co, md⟩ := e
  simp only at hflag
  subst hflag
  simp only at hex
  simp [untarNext, untarFile, entryIsDir, hex]

/-- Witness for claim C5 on a concrete hard-link entry. -/
theorem hardlink_target_amended_witness :
    untarNext cfg0 exFalse "out" ⟨"p/q", TypeFlag.link, "t.txt", [], 0⟩ =
      Res.ok [FSAction.hardlink (pathJoin2 "out" "p/q")
        (pathJoin2 (pathJoin2 "out" "p/q") "t.txt")] :=
  hardlink_target_amended cfg0 exFalse "out"
    ⟨"p/q", TypeFlag.link, "t.txt", [], 0⟩ rfl rfl

/-- Claim C6. The claim states that both Create operations terminate,
binding a fresh encoder or failing with the already-open error. On the
code, the plain handle behaves as claimed, but TarGz.Create calls itself
instead of the embedded Tar.Create after installing the wrap, so no
amount of unrolling reaches a result: the call never returns. -/
theorem tarGz_create_never_returns :
    (∀ (n : Nat) (s : TGZState) (out : ByteStream),
      tarGzCreateFuel n s out = none) ∧
    (∀ (w : TarWriterH) (tr : Option TarReaderH) (a b c : Option GzWrap)
      (out : ByteStream),
      (tarCreate ⟨some w, tr, a, b, c⟩ out).2 =
        some "tar archive is already created for writing") := by
  constructor
  · intro n
    induction n with
    | zero => intro s out; rfl
    | succ n ih => intro s out; exact ih (tgzWrapWriter s) out
  · intro w tr a b c out; rfl

/-- Claim C7. For every handle state, a second Close in a row reports
success, emits nothing, and leaves the state unchanged: the
end-of-archive marker is emitted at most once. -/
theorem close_idempotent_second_silent (s : TarState) :
    tarClose (tarClose s).1 = ((tarClose s).1, ([], none)) := by
  obtain ⟨tw, tr, a, b, c⟩ := s
  cases tw <;> cases tr <;> rfl

/-- Claim C8 counterexample. The claim states a handle is never
simultaneously write-open and read-open. On the code, Create guards only
the writer binding and Open only the reader binding: a Create followed by
an Open succeeds on both sides and leaves both bindings live at once. -/
theorem both_modes_counterexample :
    (tarOpen (tarCreate tarState0 (ByteStream.raw 0)).1 (ByteStream.raw 1)).1.tw =
      some ⟨ByteStream.raw 0, none⟩ ∧
    (tarOpen (tarCreate tarState0 (ByteStream.raw 0)).1 (ByteStream.raw 1)).1.tr =
      some ⟨ByteStream.raw 1⟩ ∧
    (tarCreate tarState0 (ByteStream.raw 0)).2 = none ∧
    (tarOpen (tarCreate tarState0 (ByteStream.raw 0)).1 (ByteStream.raw 1)).2 = none :=
  ⟨rfl, rfl, rfl, rfl⟩

/-- Claim C8 as amended: the write and read bindings of a handle are
guarded independently. Create succeeds exactly when no writer is bound
and leaves the reader binding untouched; Open succeeds exactly when no
reader is bound and leaves the writer binding untouched; Close clears
both. A handle can therefore be write-open and read-open at once. -/
theorem modes_independent_amended (s : TarState) (out inp : ByteStream) :
    ((tarCreate s out).2 = none ↔ s.tw = none) ∧
    (tarCreate s out).1.tr = s.tr ∧
    ((tarOpen s inp).2 = none ↔ s.tr = none) ∧
    (tarOpen s inp).1.tw = s.tw ∧
    (tarClose s).1.tw = none ∧ (tarClose s).1.tr = none := by
  obtain ⟨tw, tr, a, b, c⟩ := s
  cases tw <;> cases tr <;> simp [tarCreate, tarOpen, tarClose]

/-- Claim C9 counterexample. The claim states that a directory entry with
valid metadata and no content stream is written as a header-only record.
On the code, the content stream check runs before the directory case, so
the call fails instead. -/
theorem write_dir_no_stream_counterexample :
    tarWrite tarStateW ⟨some ⟨"mydir", true, TypeFlag.dir, 493⟩, none⟩ =
      Res.err "mydir: no way to read file contents" := rfl

/-- Claim C9 as amended: Write rejects an empty name and requires a
content stream for every entry, directories included; given a stream, a
directory or any other non-regular kind yields a header-only record, and
only the regular-file kind has its content copied after the header. -/
theorem write_stream_required_amended (w : TarWriterH)
    (tr : Option TarReaderH) (a b c : Option GzWrap) (fi : GoFileInfo)
    (bytes : List Nat) :
    (fi.name ≠ "" → tarWrite ⟨some w, tr, a, b, c⟩ ⟨some fi, none⟩ =
      Res.err (strCat fi.name ": no way to read file contents")) ∧
    (fi.name = "" → tarWrite ⟨some w, tr, a, b, c⟩ ⟨some fi, some bytes⟩ =
      Res.err "missing file name") ∧
    (fi.name ≠ "" → fi.isDir = true →
      tarWrite ⟨some w, tr, a, b, c⟩ ⟨some fi, some bytes⟩ =
        Res.ok [Record.header fi.name fi.kind fi.mode]) ∧
    (fi.name ≠ "" → fi.isDir = false → fi.kind = TypeFlag.reg →
      tarWrite ⟨some w, tr, a, b, c⟩ ⟨some fi, some bytes⟩ =
        Res.ok [Record.header fi.name fi.kind fi.mode,
          Record.payload bytes]) ∧
    (fi.name ≠ "" → fi.isDir = false → fi.kind ≠ TypeFlag.reg →
      tarWrite ⟨some w, tr, a, b, c⟩ ⟨some fi, some bytes⟩ =
        Res.ok [Record.header fi.name fi.kind fi.mode]) := by
  refine ⟨?_, ?_, ?_, ?_, ?_⟩ <;> intros <;> simp_all [tarWrite]

/-- Witness for claim C9: a directory entry that does carry a stream is
written header-only. -/
theorem write_stream_required_amended_witness :
    tarWrite tarStateW ⟨some ⟨"mydir", true, TypeFlag.dir, 493⟩, some [1]⟩ =
      Res.ok [Record.header "mydir" TypeFlag.dir 493] :=
  (write_stream_required_amended w0 none none none none
    ⟨"mydir", true, TypeFlag.dir, 493⟩ [1]).2.2.1 (by decide) rfl

/-- Claim C10. The claim states that packing a subtree and unpacking the
result reproduces the same relative paths. On the code, the walk root is
named by the source string itself instead of its path relative to the
source, so a directory source d containing x.txt is archived with a
root entry named d/d; unpacking materializes the directory d/d, a
relative path the source tree does not contain, so the round trip does
not reproduce the same relative paths. -/
theorem pack_root_naming_breaks_roundtrip :
    (writeWalkEntries "d" "" demoTree).map TEntry.name = ["d/d", "d/x.txt"] ∧
    treeRelPaths demoTree = ["d", "d/x.txt"] ∧
    unarchiveLoop cfg0 exFalse "" (writeWalkEntries "d" "" demoTree) =
      Res.ok ⟨[FSAction.mkdirA "d/d",
        FSAction.writeFile "d/x.txt" [104, 105] 420], []⟩ ∧
    ¬ ("d/d" ∈ treeRelPaths demoTree) :=
  ⟨rfl, rfl, rfl, by decide⟩
